import Mathlib

/-!
FastForward provisioning API and publish-settings client construction.

A shallow embedding of

* `provisioning/api/rpc/json/server.go` (the JSON-RPC handlers `Provisioning.Exec`
  and `Provisioning.GetFile`), and
* `azure-sdk-for-go/management/publishSettings.go`
  (`ClientFromPublishSettingsDataWithConfig` and `ClientFromPublishSettingsData`).

Collaborators whose code lives in other packages (`provisioning.Conf.Execute`,
`provisioning.Conf.GetFile`, `xml.Unmarshal`, `base64.StdEncoding.DecodeString`,
`pkcs12.ConvertToPEM`, `pem.EncodeToMemory`, `makeClient`, `DefaultConfig`) are taken
as parameters.  Every invocation of a collaborator is recorded in an explicit call
log, so that "is invoked", "is not invoked" and "is invoked once" are statements about
that log.
-/

set_option autoImplicit false

namespace FastForward

/-! ## `server.go` -/

/-- The command of package `provisioning`, with the three fields that
`Provisioning.Exec` reads and writes. -/
structure Cmd where
  AptCache : Bool
  UseSudo : Bool
  CmdLine : String
  deriving DecidableEq

/-- File contains filename for GetFile and PutFile. -/
structure File where
  RemoteFile : String
  LocalFile : String
  deriving DecidableEq

/-- Args contains the method arguments for ssh login: the embedded `provisioning.Conf`
(its declaration is in another package, so its type is the parameter `C`), the embedded
`provisioning.Cmd` and the embedded `File`. -/
structure Args (C : Type) where
  Conf : C
  Cmd : Cmd
  File : File
  deriving DecidableEq

/-- Result contains the API call results: a Go `interface{}` value.  It is either still
unset, a string, or some other dynamic value of the provisioning layer (type `V`). -/
inductive Result (V : Type) where
  | unset
  | str (s : String)
  | val (v : V)
  deriving DecidableEq

/-- One invocation of a method of the `provisioning.Provisioning` interface. The receiver
is the `Conf` embedded in the request. -/
inductive Call (C : Type) where
  | Execute (conf : C) (cmd : Cmd)
  | GetFile (conf : C) (remote : String) (loc : String)
  deriving DecidableEq

/-- What a handler can change: the caller's `*result` and the log of collaborator
invocations made so far. -/
structure Handler (C V : Type) where
  result : Result V
  calls : List (Call C)
  deriving DecidableEq

/-- The validation message of `Provisioning.GetFile`. -/
def fileNeeded : String := "RemoteFile or LocalFile are needed."

/-- Exec takes a command to be executed from API on the remote server.

```go
cmd := provisioning.Cmd{AptCache: args.AptCache, UseSudo: args.UseSudo, CmdLine: args.CmdLine}
i := provisioning.Provisioning(args)
*result, _ = i.Execute(cmd)
return nil
```
The second component of the value is the `error` the handler returns. -/
def Provisioning.Exec {C V E : Type} (Execute : C → Cmd → Result V × Option E)
    (args : Args C) (st : Handler C V) : Handler C V × Option E :=
  let cmd : Cmd :=
    { AptCache := args.Cmd.AptCache, UseSudo := args.Cmd.UseSudo, CmdLine := args.Cmd.CmdLine }
  let i := args.Conf
  let r := Execute i cmd
  ({ result := r.1, calls := st.calls ++ [Call.Execute i cmd] }, none)

/-- GetFile copies the file from the remote host to the local FastForward server.

```go
if args.RemoteFile== "" || args.LocalFile == "" {
    *result = "RemoteFile or LocalFile are needed."
}
i := provisioning.Provisioning(args)
*result = i.GetFile(args.RemoteFile, args.LocalFile)
return nil
```
-/
def Provisioning.GetFile {C V E : Type} (GetFile : C → String → String → Result V)
    (args : Args C) (st : Handler C V) : Handler C V × Option E :=
  let st1 : Handler C V :=
    if args.File.RemoteFile == "" || args.File.LocalFile == "" then
      { st with result := Result.str fileNeeded }
    else st
  let i := args.Conf
  let st2 : Handler C V :=
    { result := GetFile i args.File.RemoteFile args.File.LocalFile,
      calls := st1.calls ++ [Call.GetFile i args.File.RemoteFile args.File.LocalFile] }
  (st2, none)

/-- The state a handler starts from: nothing written to `*result`, nothing invoked. -/
def Handler.init (C V : Type) : Handler C V := { result := Result.unset, calls := [] }

/-- Modelled from the spec: the effective-command construction of the core `Execute`
(package `provisioning`, whose source is not part of the tree).  Spec §3: with the
elevation flag the text is wrapped with the privilege-escalation prefix, with the
package-cache flag the command is prefixed with the cache environment assignment, in
the fixed order "package-cache environment prefix, then elevation wrapper", as in the
example `<cache-env-prefix> sudo apt-get update`.  The two tokens are
implementation-defined and therefore parameters. -/
def effectiveCommand (cacheEnv sudoWrapper : String) (cmd : Cmd) : String :=
  let elevated := if cmd.UseSudo then sudoWrapper ++ " " ++ cmd.CmdLine else cmd.CmdLine
  if cmd.AptCache then cacheEnv ++ " " ++ elevated else elevated

/-- The effective commands of the `Execute` invocations in a call log, in order. -/
def sentCommands {C : Type} (cacheEnv sudoWrapper : String) :
    List (Call C) → List String
  | [] => []
  | Call.Execute _ cmd :: rest =>
      effectiveCommand cacheEnv sudoWrapper cmd :: sentCommands cacheEnv sudoWrapper rest
  | Call.GetFile _ _ _ :: rest => sentCommands cacheEnv sudoWrapper rest

/-! ## `publishSettings.go` -/

/-- A Go `[]byte`; no arithmetic is done on the bytes, so they are plain naturals. -/
abbrev Bytes := List Nat

/-- The `Subscription` element of a publish-settings document.  `XMLName` is the
`xml.Name` pair (namespace, local name). -/
structure subscription where
  XMLName : String × String
  ServiceManagementURL : String
  ID : String
  Name : String
  ManagementCertificate : String
  deriving DecidableEq

/-- The `PublishProfile` element of a publish-settings document. -/
structure publishProfile where
  XMLName : String × String
  SchemaVersion : String
  PublishMethod : String
  URL : String
  ManagementCertificate : String
  Subscriptions : List subscription
  deriving DecidableEq

/-- The `PublishData` root element. -/
structure publishData where
  XMLName : String × String
  PublishProfiles : List publishProfile
  deriving DecidableEq

/-- The client configuration.  Its declaration is in another file of the package; the
only field this file touches is `ManagementURL`, the remaining ones are kept together
in `other`. -/
structure ClientConfig (K : Type) where
  ManagementURL : String
  other : K
  deriving DecidableEq

/-- A Go `error` as returned by this file, tagged with where the value was made: inside
one of the collaborators (whose error values have type `E`), or by the `fmt.Errorf`
call of `ClientFromPublishSettingsDataWithConfig`, which carries its formatted text.
Error values made at different places are different Go values, hence the tags. -/
inductive Error (E : Type) where
  | unmarshal (e : E)
  | decode (e : E)
  | convert (e : E)
  | client (e : E)
  | errorf (msg : String)
  deriving DecidableEq

/-- One invocation of a collaborator, with its arguments. -/
inductive Event (B K : Type) where
  | Unmarshal (data : Bytes)
  | DecodeString (s : String)
  | ConvertToPEM (pfxData : Bytes)
  | EncodeToMemory (b : B)
  | makeClient (subscriptionID : String) (certificate : Bytes) (config : ClientConfig K)
  deriving DecidableEq

/-- The collaborators of `publishSettings.go`: `xml.Unmarshal` into a `publishData`,
`base64.StdEncoding.DecodeString`, `pkcs12.ConvertToPEM` (called with a nil password;
it hands back both its blocks and its error), `pem.EncodeToMemory`, `makeClient`,
`DefaultConfig`, and the zero value of `Client`. -/
structure Env (Client E B K : Type) where
  Unmarshal : Bytes → Except E publishData
  DecodeString : String → Except E Bytes
  ConvertToPEM : Bytes → List B × Option E
  EncodeToMemory : B → Bytes
  makeClient : String → Bytes → ClientConfig K → Client × Option E
  DefaultConfig : ClientConfig K
  zero : Client

/-- What a call hands back, `(client Client, err error)`, and the invocations made. -/
structure Outcome (Client E B K : Type) where
  client : Client
  err : Option (Error E)
  log : List (Event B K)

/-- The body of the `if` at lines 52-72, for one `profile` and one of its `sub`s:

```go
base64Cert := sub.ManagementCertificate
if base64Cert == "" {
    base64Cert = profile.ManagementCertificate
}
pfxData, err := base64.StdEncoding.DecodeString(base64Cert)
if err != nil {
    return client, err
}
pems, err := pkcs12.ConvertToPEM(pfxData, nil)
cert := []byte{}
for _, b := range pems {
    cert = append(cert, pem.EncodeToMemory(b)...)
}
config.ManagementURL = sub.ServiceManagementURL
return makeClient(sub.ID, cert, config)
```
-/
def useSubscription {Client E B K : Type} (env : Env Client E B K)
    (profile : publishProfile) (sub : subscription) (config : ClientConfig K)
    (log : List (Event B K)) : Outcome Client E B K :=
  let base64Cert :=
    if sub.ManagementCertificate == "" then profile.ManagementCertificate
    else sub.ManagementCertificate
  let log1 := log ++ [Event.DecodeString base64Cert]
  match env.DecodeString base64Cert with
  | Except.error err => { client := env.zero, err := some (Error.decode err), log := log1 }
  | Except.ok pfxData =>
    let pems := env.ConvertToPEM pfxData
    let log2 := log1 ++ [Event.ConvertToPEM pfxData]
    let cert : Bytes := pems.1.foldl (fun cert b => cert ++ env.EncodeToMemory b) []
    let log3 := log2 ++ pems.1.map Event.EncodeToMemory
    let config1 : ClientConfig K := { config with ManagementURL := sub.ServiceManagementURL }
    let r := env.makeClient sub.ID cert config1
    { client := r.1, err := r.2.map Error.client,
      log := log3 ++ [Event.makeClient sub.ID cert config1] }

/-- The inner loop `for _, sub := range profile.Subscriptions`; `none` when the loop
ends without returning. -/
def subscriptionsLoop {Client E B K : Type} (env : Env Client E B K)
    (subscriptionID : String) (config : ClientConfig K) (log : List (Event B K))
    (profile : publishProfile) : List subscription → Option (Outcome Client E B K)
  | [] => none
  | sub :: rest =>
    if sub.ID == subscriptionID || subscriptionID == "" then
      some (useSubscription env profile sub config log)
    else subscriptionsLoop env subscriptionID config log profile rest

/-- The outer loop `for _, profile := range publishData.PublishProfiles`; `none` when
the loop ends without returning. -/
def profilesLoop {Client E B K : Type} (env : Env Client E B K)
    (subscriptionID : String) (config : ClientConfig K) (log : List (Event B K)) :
    List publishProfile → Option (Outcome Client E B K)
  | [] => none
  | profile :: rest =>
    match subscriptionsLoop env subscriptionID config log profile profile.Subscriptions with
    | some out => some out
    | none => profilesLoop env subscriptionID config log rest

/-- The text of `fmt.Errorf("could not find subscription '%s' in settings provided", subscriptionID)`. -/
def notFoundText (subscriptionID : String) : String :=
  "could not find subscription '" ++ subscriptionID ++ "' in settings provided"

/-- ClientFromPublishSettingsDataWithConfig unmarshalls the contents of a publish
settings file.  If subscriptionID is left empty, the first subscription in the string
is used. -/
def ClientFromPublishSettingsDataWithConfig {Client E B K : Type} (env : Env Client E B K)
    (data : Bytes) (subscriptionID : String) (config : ClientConfig K) :
    Outcome Client E B K :=
  let log := [Event.Unmarshal data]
  match env.Unmarshal data with
  | Except.error err => { client := env.zero, err := some (Error.unmarshal err), log := log }
  | Except.ok publishData =>
    match profilesLoop env subscriptionID config log publishData.PublishProfiles with
    | some out => out
    | none =>
      { client := env.zero, err := some (Error.errorf (notFoundText subscriptionID)), log := log }

/-- ClientFromPublishSettingsData unmarshalls the contents of a publish settings file.
If subscriptionID is left empty, the first subscription in the file is used. -/
def ClientFromPublishSettingsData {Client E B K : Type} (env : Env Client E B K)
    (settingsData : Bytes) (subscriptionID : String) : Outcome Client E B K :=
  ClientFromPublishSettingsDataWithConfig env settingsData subscriptionID env.DefaultConfig

/-! ### Reading the call log and the document -/

/-- The texts handed to `DecodeString`, in order. -/
def decodedTexts {B K : Type} : List (Event B K) → List String
  | [] => []
  | Event.DecodeString s :: rest => s :: decodedTexts rest
  | _ :: rest => decodedTexts rest

/-- The argument triples handed to `makeClient`, in order. -/
def clientCalls {B K : Type} : List (Event B K) → List (String × Bytes × ClientConfig K)
  | [] => []
  | Event.makeClient i c k :: rest => (i, c, k) :: clientCalls rest
  | _ :: rest => clientCalls rest

/-- A subscription matches when its ID equals `subscriptionID` or `subscriptionID` is
empty. -/
def isMatch (subscriptionID : String) (sub : subscription) : Prop :=
  sub.ID = subscriptionID ∨ subscriptionID = ""

instance (subscriptionID : String) (sub : subscription) :
    Decidable (isMatch subscriptionID sub) := by
  unfold isMatch; infer_instance

/-- Every subscription of the document with its enclosing profile, in document order. -/
def allSubscriptions (profiles : List publishProfile) : List (publishProfile × subscription) :=
  profiles.flatMap (fun p => p.Subscriptions.map (fun s => (p, s)))

/-- The first matching subscription in document order, with its enclosing profile. -/
def firstMatch (subscriptionID : String) (profiles : List publishProfile) :
    Option (publishProfile × subscription) :=
  (allSubscriptions profiles).find? (fun ps => decide (isMatch subscriptionID ps.2))

/-- The certificate text of a subscription: its own `ManagementCertificate` when that is
non-empty, the enclosing profile's otherwise. -/
def certificateText (profile : publishProfile) (sub : subscription) : String :=
  if sub.ManagementCertificate = "" then profile.ManagementCertificate
  else sub.ManagementCertificate

/-! ### Collaborators used at concrete inputs -/

/-- Modelled from the spec: the three error kinds of §7 of the core operations. -/
inductive CoreError where
  | InvalidArgument
  | ConnectionFailure
  | TransferFailure
  deriving DecidableEq

/-- An `Execute` that behaves as §4.1 asks at its boundary: it rejects an empty command
line with `InvalidArgument`, and otherwise reports a connection failure for the host
`"down"` and echoes the command line for every other host. -/
def sampleExecute (conf : String) (cmd : Cmd) : Result Bool × Option CoreError :=
  if cmd.CmdLine = "" then (Result.unset, some CoreError.InvalidArgument)
  else if conf = "down" then (Result.unset, some CoreError.ConnectionFailure)
  else (Result.str cmd.CmdLine, none)

/-- A `GetFile` that reports the transfer status `false` when a path is empty and
`true` otherwise. -/
def sampleGetFile (_conf : String) (remote loc : String) : Result Bool :=
  Result.val (!(remote = "" || loc = ""))

/-- A client as the sample `makeClient` builds it. -/
structure SampleClient where
  subscriptionID : String
  certificate : Bytes
  url : String
  deriving DecidableEq

/-- Subscription `sub-a`, with no certificate of its own. -/
def subA : subscription :=
  { XMLName := ("", "Subscription"), ServiceManagementURL := "https://a.example",
    ID := "sub-a", Name := "A", ManagementCertificate := "" }

/-- Subscription `sub-b`, with its own certificate text `"QUJD"`. -/
def subB : subscription :=
  { XMLName := ("", "Subscription"), ServiceManagementURL := "https://b.example",
    ID := "sub-b", Name := "B", ManagementCertificate := "QUJD" }

/-- Subscription `sub-c`, whose own certificate text `"%%"` is not base64. -/
def subC : subscription :=
  { XMLName := ("", "Subscription"), ServiceManagementURL := "https://c.example",
    ID := "sub-c", Name := "C", ManagementCertificate := "%%" }

/-- A profile without subscriptions. -/
def emptyProfile : publishProfile :=
  { XMLName := ("", "PublishProfile"), SchemaVersion := "2.0",
    PublishMethod := "AzureServiceManagementAPI", URL := "",
    ManagementCertificate := "%%", Subscriptions := [] }

/-- A profile with certificate text `"UEZY"` and the subscriptions `sub-a`, `sub-b`,
`sub-c`, in this order. -/
def mainProfile : publishProfile :=
  { XMLName := ("", "PublishProfile"), SchemaVersion := "2.0",
    PublishMethod := "AzureServiceManagementAPI", URL := "",
    ManagementCertificate := "UEZY", Subscriptions := [subA, subB, subC] }

/-- A publish-settings document: `emptyProfile`, then `mainProfile`. -/
def sampleDoc : publishData :=
  { XMLName := ("", "PublishData"), PublishProfiles := [emptyProfile, mainProfile] }

/-- A publish-settings document without any subscription. -/
def emptyDoc : publishData :=
  { XMLName := ("", "PublishData"), PublishProfiles := [emptyProfile] }

/-- Collaborators for concrete runs.  `Unmarshal` parses the one-byte input `[1]` to
`sampleDoc` and `[0]` to `emptyDoc`; `DecodeString` decodes `"UEZY"` to `PFX` and
`"QUJD"` to `ABC` and rejects every other text; `ConvertToPEM` converts `PFX` to one block and fails, with no block,
on everything else; `makeClient` refuses an empty certificate. -/
def sampleEnv : Env SampleClient String String Unit :=
  { Unmarshal := fun data =>
      if data = [1] then Except.ok sampleDoc
      else if data = [0] then Except.ok emptyDoc
      else Except.error "EOF"
    DecodeString := fun t =>
      if t = "UEZY" then Except.ok [80, 70, 88]
      else if t = "QUJD" then Except.ok [65, 66, 67]
      else Except.error "illegal base64 data"
    ConvertToPEM := fun pfxData =>
      if pfxData = [80, 70, 88] then (["CERTIFICATE"], none)
      else ([], some "pkcs12: error reading P12 data")
    EncodeToMemory := fun b => [45, b.length, 45]
    makeClient := fun i c k =>
      if c = [] then (⟨"", [], ""⟩, some "azure: management certificate required")
      else (⟨i, c, k.ManagementURL⟩, none)
    DefaultConfig := { ManagementURL := "https://management.core.windows.net", other := () }
    zero := ⟨"", [], ""⟩ }

/-! ## Theorems about `server.go` -/

theorem sentCommands_append {C : Type} (cacheEnv sudoWrapper : String)
    (xs ys : List (Call C)) :
    sentCommands cacheEnv sudoWrapper (xs ++ ys)
      = sentCommands cacheEnv sudoWrapper xs ++ sentCommands cacheEnv sudoWrapper ys := by
  induction xs with
  | nil => rfl
  | cons x xs ih =>
    cases x with
    | Execute conf cmd => simp [sentCommands, ih]
    | GetFile conf remote loc => simp [sentCommands, ih]

/-- C1 (evaluation at the failing input): for the request with `RemoteFile = ""` and
`LocalFile = "/tmp/out"`, `Provisioning.GetFile` does invoke the underlying
`GetFile("", "/tmp/out")`, and what it hands back is the status of that transfer, not
the validation message `"RemoteFile or LocalFile are needed."`; its error is nil. -/
theorem C1_GetFile_empty_remote_still_transfers :
    (Provisioning.GetFile sampleGetFile
        { Conf := "host", Cmd := ⟨false, false, ""⟩, File := ⟨"", "/tmp/out"⟩ }
        (Handler.init String Bool) : Handler String Bool × Option CoreError)
      = ({ result := Result.val false, calls := [Call.GetFile "host" "" "/tmp/out"] }, none)
    ∧ (Result.val false : Result Bool) ≠ Result.str fileNeeded := by
  constructor
  · rfl
  · intro h; cases h

/-- C2 (counterexample): for the host `"down"` the underlying `Execute` returns the
non-nil error `ConnectionFailure`, yet the error `Provisioning.Exec` returns is nil,
not that error. -/
theorem C2_Exec_drops_error_counterexample :
    (sampleExecute "down" ⟨false, false, "uptime"⟩).2 = some CoreError.ConnectionFailure
    ∧ (Provisioning.Exec sampleExecute
        { Conf := "down", Cmd := ⟨false, false, "uptime"⟩, File := ⟨"", ""⟩ }
        (Handler.init String Bool)).2 = none
    ∧ (Provisioning.Exec sampleExecute
        { Conf := "down", Cmd := ⟨false, false, "uptime"⟩, File := ⟨"", ""⟩ }
        (Handler.init String Bool)).2 ≠ some CoreError.ConnectionFailure := by
  refine ⟨by decide, rfl, ?_⟩
  intro h; cases h

/-- C2 (amended): for every request, if the underlying `Execute` call made by
`Provisioning.Exec` returns a non-nil error, `Exec` does not surface it: the error
`Exec` returns is nil, and the result written back is still the first value `Execute`
returned. -/
theorem C2_Exec_returns_nil_error {C V E : Type} (Execute : C → Cmd → Result V × Option E)
    (args : Args C) (st : Handler C V) (e : E)
    (_h : (Execute args.Conf args.Cmd).2 = some e) :
    (Provisioning.Exec Execute args st).2 = none
    ∧ (Provisioning.Exec Execute args st).2 ≠ some e
    ∧ (Provisioning.Exec Execute args st).1.result = (Execute args.Conf args.Cmd).1 := by
  refine ⟨rfl, ?_, rfl⟩
  intro h2; cases h2

/-- Instance of C2 (amended): host `"down"`, where `sampleExecute` reports `ConnectionFailure`. -/
theorem C2_Exec_returns_nil_error_witness :
    (sampleExecute "down" ⟨true, false, "uptime"⟩).2 = some CoreError.ConnectionFailure
    ∧ (Provisioning.Exec sampleExecute
        { Conf := "down", Cmd := ⟨true, false, "uptime"⟩, File := ⟨"", ""⟩ }
        (Handler.init String Bool)).2 = none :=
  ⟨by decide,
   (C2_Exec_returns_nil_error sampleExecute
      { Conf := "down", Cmd := ⟨true, false, "uptime"⟩, File := ⟨"", ""⟩ }
      (Handler.init String Bool) CoreError.ConnectionFailure (by decide)).1⟩

/-- C3 (counterexample): for a request whose `CmdLine` is empty, `Provisioning.Exec`
returns a nil error (so it does not fail with `InvalidArgument`), and the underlying
`Execute` is invoked with the empty command. -/
theorem C3_Exec_empty_command_counterexample :
    (Provisioning.Exec sampleExecute
        { Conf := "host", Cmd := ⟨false, true, ""⟩, File := ⟨"", ""⟩ }
        (Handler.init String Bool)).2 = none
    ∧ (Provisioning.Exec sampleExecute
        { Conf := "host", Cmd := ⟨false, true, ""⟩, File := ⟨"", ""⟩ }
        (Handler.init String Bool)).1.calls = [Call.Execute "host" ⟨false, true, ""⟩] := by
  exact ⟨rfl, rfl⟩

/-- C3 (amended): for every request whose command line text is empty,
`Provisioning.Exec` does no validation of its own: it returns a nil error, it invokes
the underlying `Execute` exactly once, with the request's flags and the empty command
line, and it writes back the first value of that call. -/
theorem C3_Exec_empty_command_passes_through {C V E : Type}
    (Execute : C → Cmd → Result V × Option E) (args : Args C) (st : Handler C V)
    (h : args.Cmd.CmdLine = "") :
    (Provisioning.Exec Execute args st).2 = none
    ∧ (Provisioning.Exec Execute args st).1.calls
        = st.calls ++ [Call.Execute args.Conf ⟨args.Cmd.AptCache, args.Cmd.UseSudo, ""⟩]
    ∧ (Provisioning.Exec Execute args st).1.result
        = (Execute args.Conf ⟨args.Cmd.AptCache, args.Cmd.UseSudo, ""⟩).1 := by
  simp [Provisioning.Exec, h]

/-- Instance of C3 (amended): an empty command line with both flags set. -/
theorem C3_Exec_empty_command_passes_through_witness :
    (Provisioning.Exec sampleExecute
        { Conf := "host", Cmd := ⟨true, true, ""⟩, File := ⟨"a", "b"⟩ }
        (Handler.init String Bool)).1.result
      = (sampleExecute "host" ⟨true, true, ""⟩).1 :=
  (C3_Exec_empty_command_passes_through sampleExecute
      { Conf := "host", Cmd := ⟨true, true, ""⟩, File := ⟨"a", "b"⟩ }
      (Handler.init String Bool) rfl).2.2

/-- C5 (against the effective-command construction modelled from the spec): for every
request with package-cache and elevation both set and a non-empty command line, the one
command that `Provisioning.Exec` hands to `Execute` has as effective command the cache
environment assignment, then the elevation wrapper, then the original text; and any
request with the same command text and flags yields the same effective command. -/
theorem C5_Exec_effective_command {C V E : Type} (cacheEnv sudoWrapper : String)
    (Execute : C → Cmd → Result V × Option E) (args : Args C) (st : Handler C V)
    (hcache : args.Cmd.AptCache = true) (hsudo : args.Cmd.UseSudo = true)
    (_htext : args.Cmd.CmdLine ≠ "") :
    sentCommands cacheEnv sudoWrapper (Provisioning.Exec Execute args st).1.calls
      = sentCommands cacheEnv sudoWrapper st.calls
          ++ [cacheEnv ++ " " ++ (sudoWrapper ++ " " ++ args.Cmd.CmdLine)]
    ∧ ∀ (Execute2 : C → Cmd → Result V × Option E) (args2 : Args C),
        args2.Cmd.AptCache = args.Cmd.AptCache → args2.Cmd.UseSudo = args.Cmd.UseSudo →
        args2.Cmd.CmdLine = args.Cmd.CmdLine →
        sentCommands cacheEnv sudoWrapper (Provisioning.Exec Execute2 args2 st).1.calls
          = sentCommands cacheEnv sudoWrapper (Provisioning.Exec Execute args st).1.calls := by
  constructor
  · simp [Provisioning.Exec, sentCommands_append, sentCommands, effectiveCommand, hcache, hsudo]
  · intro Execute2 args2 h1 h2 h3
    simp [Provisioning.Exec, sentCommands_append, sentCommands, effectiveCommand, h1, h2, h3]

/-- Instance of C5: `apt-get update` with both flags set and the tokens `APT_CACHE=/var/cache/apt` and `sudo`. -/
theorem C5_Exec_effective_command_witness :
    sentCommands "APT_CACHE=/var/cache/apt" "sudo"
        (Provisioning.Exec sampleExecute
          { Conf := "host", Cmd := ⟨true, true, "apt-get update"⟩, File := ⟨"", ""⟩ }
          (Handler.init String Bool)).1.calls
      = [] ++ ["APT_CACHE=/var/cache/apt" ++ " " ++ ("sudo" ++ " " ++ "apt-get update")] :=
  (C5_Exec_effective_command "APT_CACHE=/var/cache/apt" "sudo" sampleExecute
      { Conf := "host", Cmd := ⟨true, true, "apt-get update"⟩, File := ⟨"", ""⟩ }
      (Handler.init String Bool) rfl rfl (by decide)).1

/-- C6: for every request, `Provisioning.Exec` adds exactly one invocation to the call
log, an `Execute` on the request's `Conf` with a command whose `AptCache`, `UseSudo`
and `CmdLine` are the request's, and the result written back is the first value that
invocation returned. -/
theorem C6_Exec_invokes_Execute_once {C V E : Type}
    (Execute : C → Cmd → Result V × Option E) (args : Args C) (st : Handler C V) :
    ∃ cmd : Cmd,
      (Provisioning.Exec Execute args st).1.calls = st.calls ++ [Call.Execute args.Conf cmd]
      ∧ cmd.AptCache = args.Cmd.AptCache
      ∧ cmd.UseSudo = args.Cmd.UseSudo
      ∧ cmd.CmdLine = args.Cmd.CmdLine
      ∧ (Provisioning.Exec Execute args st).1.result = (Execute args.Conf cmd).1 :=
  ⟨⟨args.Cmd.AptCache, args.Cmd.UseSudo, args.Cmd.CmdLine⟩, rfl, rfl, rfl, rfl, rfl⟩

/-! ## Lemmas about `publishSettings.go` -/

theorem decodedTexts_append {B K : Type} (xs ys : List (Event B K)) :
    decodedTexts (xs ++ ys) = decodedTexts xs ++ decodedTexts ys := by
  induction xs with
  | nil => rfl
  | cons x xs ih => cases x <;> simp [decodedTexts, ih]

theorem clientCalls_append {B K : Type} (xs ys : List (Event B K)) :
    clientCalls (xs ++ ys) = clientCalls xs ++ clientCalls ys := by
  induction xs with
  | nil => rfl
  | cons x xs ih => cases x <;> simp [clientCalls, ih]

theorem decodedTexts_encode {B K : Type} (bs : List B) :
    decodedTexts (bs.map (Event.EncodeToMemory : B → Event B K)) = [] := by
  induction bs with
  | nil => rfl
  | cons b bs ih => simp [decodedTexts, ih]

theorem clientCalls_encode {B K : Type} (bs : List B) :
    clientCalls (bs.map (Event.EncodeToMemory : B → Event B K)) = [] := by
  induction bs with
  | nil => rfl
  | cons b bs ih => simp [clientCalls, ih]

/-- The `append` loop over the blocks builds the concatenation of their encodings. -/
theorem foldl_append_encode {B : Type} (enc : B → Bytes) (pems : List B) (acc : Bytes) :
    pems.foldl (fun cert b => cert ++ enc b) acc = acc ++ (pems.map enc).flatten := by
  induction pems generalizing acc with
  | nil => simp
  | cons b bs ih => simp [ih, List.append_assoc]

/-- What `useSubscription` does when the certificate text does not decode. -/
theorem useSubscription_decode_error {Client E B K : Type} (env : Env Client E B K)
    (p : publishProfile) (s : subscription) (config : ClientConfig K)
    (log : List (Event B K)) (e : E)
    (h : env.DecodeString (certificateText p s) = Except.error e) :
    useSubscription env p s config log
      = { client := env.zero, err := some (Error.decode e),
          log := log ++ [Event.DecodeString (certificateText p s)] } := by
  unfold certificateText at h
  unfold useSubscription certificateText
  simp only [beq_iff_eq]
  rw [h]

/-- What `useSubscription` does when the certificate text decodes. -/
theorem useSubscription_decode_ok {Client E B K : Type} (env : Env Client E B K)
    (p : publishProfile) (s : subscription) (config : ClientConfig K)
    (log : List (Event B K)) (pfx : Bytes)
    (h : env.DecodeString (certificateText p s) = Except.ok pfx) :
    useSubscription env p s config log
      = { client := (env.makeClient s.ID ((env.ConvertToPEM pfx).1.map env.EncodeToMemory).flatten
              { config with ManagementURL := s.ServiceManagementURL }).1,
          err := (env.makeClient s.ID ((env.ConvertToPEM pfx).1.map env.EncodeToMemory).flatten
              { config with ManagementURL := s.ServiceManagementURL }).2.map Error.client,
          log := log ++ [Event.DecodeString (certificateText p s)] ++ [Event.ConvertToPEM pfx]
            ++ (env.ConvertToPEM pfx).1.map Event.EncodeToMemory
            ++ [Event.makeClient s.ID ((env.ConvertToPEM pfx).1.map env.EncodeToMemory).flatten
                  { config with ManagementURL := s.ServiceManagementURL }] } := by
  unfold certificateText at h
  unfold useSubscription certificateText
  simp only [beq_iff_eq]
  rw [h]
  simp [foldl_append_encode]

theorem subscriptionsLoop_eq {Client E B K : Type} (env : Env Client E B K)
    (subscriptionID : String) (config : ClientConfig K) (log : List (Event B K))
    (p : publishProfile) (subs : List subscription) :
    subscriptionsLoop env subscriptionID config log p subs
      = ((subs.map (fun s => (p, s))).find?
            (fun ps => decide (isMatch subscriptionID ps.2))).map
          (fun ps => useSubscription env ps.1 ps.2 config log) := by
  induction subs with
  | nil => rfl
  | cons s rest ih =>
    by_cases hm : isMatch subscriptionID s
    · have hb : (s.ID == subscriptionID || subscriptionID == "") = true := by
        simpa [isMatch] using hm
      simp [subscriptionsLoop, hb, hm]
    · have hb : (s.ID == subscriptionID || subscriptionID == "") = false := by
        simpa [isMatch] using hm
      simp [subscriptionsLoop, hb, hm, ih]

/-- The two nested loops return at the first matching subscription in document order,
and fall through when there is none. -/
theorem profilesLoop_eq {Client E B K : Type} (env : Env Client E B K)
    (subscriptionID : String) (config : ClientConfig K) (log : List (Event B K))
    (profiles : List publishProfile) :
    profilesLoop env subscriptionID config log profiles
      = (firstMatch subscriptionID profiles).map
          (fun ps => useSubscription env ps.1 ps.2 config log) := by
  induction profiles with
  | nil => rfl
  | cons p rest ih =>
    have hsplit : firstMatch subscriptionID (p :: rest)
        = ((p.Subscriptions.map (fun s => (p, s))).find?
              (fun ps => decide (isMatch subscriptionID ps.2))).or
            (firstMatch subscriptionID rest) := by
      simp [firstMatch, allSubscriptions, List.find?_append]
    rw [hsplit]
    unfold profilesLoop
    rw [subscriptionsLoop_eq, ih]
    cases (p.Subscriptions.map (fun s => (p, s))).find?
        (fun ps => decide (isMatch subscriptionID ps.2)) <;> rfl

theorem WithConfig_of_firstMatch {Client E B K : Type} (env : Env Client E B K)
    (data : Bytes) (subscriptionID : String) (config : ClientConfig K) (pd : publishData)
    (p : publishProfile) (s : subscription)
    (hparse : env.Unmarshal data = Except.ok pd)
    (hsel : firstMatch subscriptionID pd.PublishProfiles = some (p, s)) :
    ClientFromPublishSettingsDataWithConfig env data subscriptionID config
      = useSubscription env p s config [Event.Unmarshal data] := by
  unfold ClientFromPublishSettingsDataWithConfig
  simp only []
  rw [hparse]
  simp only [profilesLoop_eq, hsel, Option.map_some']

theorem WithConfig_of_no_match {Client E B K : Type} (env : Env Client E B K)
    (data : Bytes) (subscriptionID : String) (config : ClientConfig K) (pd : publishData)
    (hparse : env.Unmarshal data = Except.ok pd)
    (hsel : firstMatch subscriptionID pd.PublishProfiles = none) :
    ClientFromPublishSettingsDataWithConfig env data subscriptionID config
      = { client := env.zero, err := some (Error.errorf (notFoundText subscriptionID)),
          log := [Event.Unmarshal data] } := by
  unfold ClientFromPublishSettingsDataWithConfig
  simp only []
  rw [hparse]
  simp only [profilesLoop_eq, hsel, Option.map_none']

theorem firstMatch_eq_none_iff (subscriptionID : String) (profiles : List publishProfile) :
    firstMatch subscriptionID profiles = none
      ↔ ∀ p ∈ profiles, ∀ s ∈ p.Subscriptions, ¬ isMatch subscriptionID s := by
  simp only [firstMatch, allSubscriptions, List.find?_eq_none, List.mem_flatMap, List.mem_map,
    decide_eq_true_eq]
  constructor
  · intro h p hp s hs
    exact h (p, s) ⟨p, hp, s, hs, rfl⟩
  · rintro h ⟨q, t⟩ ⟨p, hp, s, hs, heq⟩
    cases heq
    exact h _ hp _ hs

/-- With an empty `subscriptionID` every subscription matches, so the first match is
the first subscription in document order. -/
theorem firstMatch_empty_ID (profiles : List publishProfile) :
    firstMatch "" profiles = (allSubscriptions profiles).head? := by
  unfold firstMatch
  cases allSubscriptions profiles with
  | nil => rfl
  | cons ps rest => simp [isMatch]

/-- The first subscription in document order is the first subscription of the first
profile that has any subscription. -/
theorem allSubscriptions_head (profiles : List publishProfile) (p : publishProfile)
    (s : subscription) (h : (allSubscriptions profiles).head? = some (p, s)) :
    ∃ (pre post : List publishProfile) (tail : List subscription),
      profiles = pre ++ p :: post ∧ (∀ q ∈ pre, q.Subscriptions = [])
        ∧ p.Subscriptions = s :: tail := by
  induction profiles with
  | nil => simp [allSubscriptions] at h
  | cons q rest ih =>
    cases hq : q.Subscriptions with
    | nil =>
      have h2 : (allSubscriptions rest).head? = some (p, s) := by
        simpa [allSubscriptions, hq] using h
      obtain ⟨pre, post, tail, hrest, hpre, hsub⟩ := ih h2
      refine ⟨q :: pre, post, tail, by simp [hrest], ?_, hsub⟩
      intro r hr
      rcases List.mem_cons.mp hr with hr | hr
      · rw [hr]; exact hq
      · exact hpre r hr
    | cons t tl =>
      have h2 : (q, t) = (p, s) := by
        simpa [allSubscriptions, hq] using h
      cases h2
      exact ⟨[], rest, tl, rfl, by simp, hq⟩

/-! ## Theorems about `publishSettings.go` -/

/-- C4: for every successfully parsed document with at least one subscription, let
`(p, s)` be the first subscription in document order with its profile.  Then `s` is the
first subscription of the first profile that has any subscription, and with an empty
`subscriptionID` `ClientFromPublishSettingsDataWithConfig` does exactly what the loop
body does for `s`: the only text decoded is the certificate text of `s`, every
`makeClient` invocation gets the ID of `s` and the given config with `ManagementURL` set
to the URL of `s`, and the outcome is the same for every other document with the same
first subscription and profile certificate, whatever comes later.
`ClientFromPublishSettingsData` does the same with the default config. -/
theorem C4_empty_ID_uses_first_subscription {Client E B K : Type} (env : Env Client E B K)
    (data : Bytes) (config : ClientConfig K) (pd : publishData)
    (p : publishProfile) (s : subscription)
    (hparse : env.Unmarshal data = Except.ok pd)
    (hfirst : (allSubscriptions pd.PublishProfiles).head? = some (p, s)) :
    (∃ (pre post : List publishProfile) (tail : List subscription),
        pd.PublishProfiles = pre ++ p :: post ∧ (∀ q ∈ pre, q.Subscriptions = [])
          ∧ p.Subscriptions = s :: tail)
    ∧ ClientFromPublishSettingsDataWithConfig env data "" config
        = useSubscription env p s config [Event.Unmarshal data]
    ∧ decodedTexts (ClientFromPublishSettingsDataWithConfig env data "" config).log
        = [certificateText p s]
    ∧ (∀ c ∈ clientCalls (ClientFromPublishSettingsDataWithConfig env data "" config).log,
        c.1 = s.ID ∧ c.2.2 = { config with ManagementURL := s.ServiceManagementURL })
    ∧ (∀ (data2 : Bytes) (pd2 : publishData) (p2 : publishProfile),
        env.Unmarshal data2 = Except.ok pd2 →
        (allSubscriptions pd2.PublishProfiles).head? = some (p2, s) →
        p2.ManagementCertificate = p.ManagementCertificate →
        (ClientFromPublishSettingsDataWithConfig env data2 "" config).client
            = (ClientFromPublishSettingsDataWithConfig env data "" config).client
          ∧ (ClientFromPublishSettingsDataWithConfig env data2 "" config).err
            = (ClientFromPublishSettingsDataWithConfig env data "" config).err
          ∧ clientCalls (ClientFromPublishSettingsDataWithConfig env data2 "" config).log
            = clientCalls (ClientFromPublishSettingsDataWithConfig env data "" config).log)
    ∧ ClientFromPublishSettingsData env data ""
        = useSubscription env p s env.DefaultConfig [Event.Unmarshal data]
    ∧ (∀ c ∈ clientCalls (ClientFromPublishSettingsData env data "").log,
        c.1 = s.ID ∧ c.2.2 = { env.DefaultConfig with ManagementURL := s.ServiceManagementURL }) := by
  have hsel : firstMatch "" pd.PublishProfiles = some (p, s) := by
    rw [firstMatch_empty_ID]; exact hfirst
  have key : ∀ (cfg : ClientConfig K),
      ClientFromPublishSettingsDataWithConfig env data "" cfg
        = useSubscription env p s cfg [Event.Unmarshal data] :=
    fun cfg => WithConfig_of_firstMatch env data "" cfg pd p s hparse hsel
  have hdecoded : ∀ (cfg : ClientConfig K) (q : publishProfile) (l : List (Event B K)),
      decodedTexts (useSubscription env q s cfg l).log
        = decodedTexts l ++ [certificateText q s] := by
    intro cfg q l
    cases hd : env.DecodeString (certificateText q s) with
    | error e =>
      rw [useSubscription_decode_error env q s cfg l e hd]
      simp [decodedTexts_append, decodedTexts]
    | ok pfx =>
      rw [useSubscription_decode_ok env q s cfg l pfx hd]
      simp [decodedTexts_append, decodedTexts, decodedTexts_encode]
  have hcalls : ∀ (cfg : ClientConfig K) (q : publishProfile) (d : Bytes),
      ∀ c ∈ clientCalls (useSubscription env q s cfg [Event.Unmarshal d]).log,
        c.1 = s.ID ∧ c.2.2 = { cfg with ManagementURL := s.ServiceManagementURL } := by
    intro cfg q d c hc
    cases hd : env.DecodeString (certificateText q s) with
    | error e =>
      rw [useSubscription_decode_error env q s cfg _ e hd] at hc
      simp [clientCalls_append, clientCalls] at hc
    | ok pfx =>
      rw [useSubscription_decode_ok env q s cfg _ pfx hd] at hc
      simp [clientCalls_append, clientCalls, clientCalls_encode] at hc
      subst hc
      exact ⟨rfl, rfl⟩
  refine ⟨allSubscriptions_head _ p s hfirst, key config, ?_, ?_, ?_,
    key env.DefaultConfig, ?_⟩
  · rw [key config, hdecoded]; rfl
  · rw [key config]; exact hcalls config p data
  · intro data2 pd2 p2 hparse2 hfirst2 hcert
    have hsel2 : firstMatch "" pd2.PublishProfiles = some (p2, s) := by
      rw [firstMatch_empty_ID]; exact hfirst2
    rw [WithConfig_of_firstMatch env data2 "" config pd2 p2 s hparse2 hsel2, key config]
    have htext : certificateText p2 s = certificateText p s := by
      simp [certificateText, hcert]
    cases hd : env.DecodeString (certificateText p s) with
    | error e =>
      rw [useSubscription_decode_error env p s config _ e hd,
        useSubscription_decode_error env p2 s config _ e (htext ▸ hd)]
      simp [clientCalls_append, clientCalls]
    | ok pfx =>
      rw [useSubscription_decode_ok env p s config _ pfx hd,
        useSubscription_decode_ok env p2 s config _ pfx (htext ▸ hd)]
      simp [clientCalls_append, clientCalls, clientCalls_encode]
  · unfold ClientFromPublishSettingsData
    rw [key env.DefaultConfig]; exact hcalls env.DefaultConfig p data

/-- Instance of C4: in `sampleDoc` the first subscription in document order is `sub-a` of `mainProfile`, after a profile without subscriptions. -/
theorem C4_empty_ID_uses_first_subscription_witness :
    (allSubscriptions sampleDoc.PublishProfiles).head? = some (mainProfile, subA)
    ∧ (∀ c ∈ clientCalls (ClientFromPublishSettingsData sampleEnv [1] "").log,
        c.1 = subA.ID
        ∧ c.2.2 = { sampleEnv.DefaultConfig with ManagementURL := subA.ServiceManagementURL }) :=
  ⟨by decide,
   (C4_empty_ID_uses_first_subscription sampleEnv [1] sampleEnv.DefaultConfig sampleDoc
      mainProfile subA rfl (by decide)).2.2.2.2.2.2⟩

/-- C7: when the subscription the loops stop at (the first matching one) has a
certificate text that decodes, and `pkcs12.ConvertToPEM` returns an error together with
some blocks, `ClientFromPublishSettingsDataWithConfig` still invokes `makeClient`, once,
with the ID of that subscription, the concatenation of the PEM encodings of the returned
blocks (the empty byte string when there is none) and the config with `ManagementURL`
set; it hands back what `makeClient` returned, and the error it returns is never the
conversion error. -/
theorem C7_conversion_error_ignored {Client E B K : Type} (env : Env Client E B K)
    (data : Bytes) (subscriptionID : String) (config : ClientConfig K) (pd : publishData)
    (p : publishProfile) (s : subscription) (pfx : Bytes) (blocks : List B) (cerr : E)
    (hparse : env.Unmarshal data = Except.ok pd)
    (hsel : firstMatch subscriptionID pd.PublishProfiles = some (p, s))
    (hdec : env.DecodeString (certificateText p s) = Except.ok pfx)
    (hconv : env.ConvertToPEM pfx = (blocks, some cerr)) :
    clientCalls (ClientFromPublishSettingsDataWithConfig env data subscriptionID config).log
        = [(s.ID, (blocks.map env.EncodeToMemory).flatten,
            { config with ManagementURL := s.ServiceManagementURL })]
    ∧ (blocks = [] →
        clientCalls (ClientFromPublishSettingsDataWithConfig env data subscriptionID config).log
          = [(s.ID, [], { config with ManagementURL := s.ServiceManagementURL })])
    ∧ (ClientFromPublishSettingsDataWithConfig env data subscriptionID config).client
        = (env.makeClient s.ID (blocks.map env.EncodeToMemory).flatten
            { config with ManagementURL := s.ServiceManagementURL }).1
    ∧ (ClientFromPublishSettingsDataWithConfig env data subscriptionID config).err
        = (env.makeClient s.ID (blocks.map env.EncodeToMemory).flatten
            { config with ManagementURL := s.ServiceManagementURL }).2.map Error.client
    ∧ ∀ e : E, (ClientFromPublishSettingsDataWithConfig env data subscriptionID config).err
        ≠ some (Error.convert e) := by
  rw [WithConfig_of_firstMatch env data subscriptionID config pd p s hparse hsel,
    useSubscription_decode_ok env p s config _ pfx hdec, hconv]
  have hcalls : clientCalls ([Event.Unmarshal data] ++ [Event.DecodeString (certificateText p s)]
        ++ [Event.ConvertToPEM pfx] ++ blocks.map (Event.EncodeToMemory : B → Event B K)
        ++ [Event.makeClient s.ID (blocks.map env.EncodeToMemory).flatten
              { config with ManagementURL := s.ServiceManagementURL }])
      = [(s.ID, (blocks.map env.EncodeToMemory).flatten,
          { config with ManagementURL := s.ServiceManagementURL })] := by
    simp [clientCalls_append, clientCalls, clientCalls_encode]
  refine ⟨hcalls, ?_, rfl, rfl, ?_⟩
  · intro hb
    subst hb
    simpa using hcalls
  · intro e he
    cases hm : (env.makeClient s.ID (blocks.map env.EncodeToMemory).flatten
        { config with ManagementURL := s.ServiceManagementURL }).2 with
    | none => simp [hm] at he
    | some x => simp [hm] at he

/-- Instance of C7: for `sub-b` the certificate decodes, the conversion fails with no block, and `makeClient` is invoked with the empty certificate. -/
theorem C7_conversion_error_ignored_witness :
    sampleEnv.ConvertToPEM [65, 66, 67] = ([], some "pkcs12: error reading P12 data")
    ∧ clientCalls (ClientFromPublishSettingsDataWithConfig sampleEnv [1] "sub-b"
          sampleEnv.DefaultConfig).log
        = [(subB.ID, [],
            { sampleEnv.DefaultConfig with ManagementURL := subB.ServiceManagementURL })] :=
  ⟨rfl,
   (C7_conversion_error_ignored sampleEnv [1] "sub-b" sampleEnv.DefaultConfig sampleDoc
      mainProfile subB [65, 66, 67] [] "pkcs12: error reading P12 data"
      rfl (by decide) rfl rfl).2.1 rfl⟩

/-- C8: for every successfully parsed document and every `subscriptionID`,
`ClientFromPublishSettingsDataWithConfig` returns the error made by
`fmt.Errorf("could not find subscription '%s' in settings provided", subscriptionID)`
if and only if no subscription of any profile matches; with an empty `subscriptionID`
that is exactly when no profile has a subscription. -/
theorem C8_not_found_iff_no_match {Client E B K : Type} (env : Env Client E B K)
    (data : Bytes) (subscriptionID : String) (config : ClientConfig K) (pd : publishData)
    (hparse : env.Unmarshal data = Except.ok pd) :
    ((ClientFromPublishSettingsDataWithConfig env data subscriptionID config).err
        = some (Error.errorf
            ("could not find subscription '" ++ subscriptionID ++ "' in settings provided"))
      ↔ ∀ p ∈ pd.PublishProfiles, ∀ s ∈ p.Subscriptions,
          ¬ (s.ID = subscriptionID ∨ subscriptionID = ""))
    ∧ (subscriptionID = "" →
        ((ClientFromPublishSettingsDataWithConfig env data subscriptionID config).err
            = some (Error.errorf
                ("could not find subscription '" ++ subscriptionID ++ "' in settings provided"))
          ↔ ∀ p ∈ pd.PublishProfiles, p.Subscriptions = [])) := by
  have main : (ClientFromPublishSettingsDataWithConfig env data subscriptionID config).err
        = some (Error.errorf (notFoundText subscriptionID))
      ↔ ∀ p ∈ pd.PublishProfiles, ∀ s ∈ p.Subscriptions, ¬ isMatch subscriptionID s := by
    rw [← firstMatch_eq_none_iff]
    cases hsel : firstMatch subscriptionID pd.PublishProfiles with
    | none =>
      rw [WithConfig_of_no_match env data subscriptionID config pd hparse hsel]
      simp
    | some ps =>
      obtain ⟨p, s⟩ := ps
      rw [WithConfig_of_firstMatch env data subscriptionID config pd p s hparse hsel]
      cases hd : env.DecodeString (certificateText p s) with
      | error e =>
        rw [useSubscription_decode_error env p s config _ e hd]
        simp
      | ok pfx =>
        rw [useSubscription_decode_ok env p s config _ pfx hd]
        cases hm : (env.makeClient s.ID
            ((env.ConvertToPEM pfx).1.map env.EncodeToMemory).flatten
            { config with ManagementURL := s.ServiceManagementURL }).2 with
        | none => simp [hm]
        | some x => simp [hm]
  refine ⟨main, ?_⟩
  intro hid
  rw [show ("could not find subscription '" ++ subscriptionID ++ "' in settings provided")
    = notFoundText subscriptionID from rfl, main]
  subst hid
  constructor
  · intro h p hp
    cases hs : p.Subscriptions with
    | nil => rfl
    | cons s rest =>
      exact absurd (Or.inr rfl) (h p hp s (by rw [hs]; exact List.mem_cons_self _ _))
  · intro h p hp s hs
    rw [h p hp] at hs
    cases hs

/-- Instance of C8: the document without subscriptions and an empty `subscriptionID`. -/
theorem C8_not_found_iff_no_match_witness :
    sampleEnv.Unmarshal [0] = Except.ok emptyDoc
    ∧ ((ClientFromPublishSettingsDataWithConfig sampleEnv [0] "" sampleEnv.DefaultConfig).err
          = some (Error.errorf ("could not find subscription '" ++ "" ++ "' in settings provided"))
        ↔ ∀ p ∈ emptyDoc.PublishProfiles, p.Subscriptions = []) :=
  ⟨rfl,
   (C8_not_found_iff_no_match sampleEnv [0] "" sampleEnv.DefaultConfig emptyDoc rfl).2 rfl⟩

/-- C9: for the subscription `ClientFromPublishSettingsDataWithConfig` stops at (the
first matching one, in profile `p`), exactly one text is decoded: the subscription's own
`ManagementCertificate` when that is non-empty, the profile's `ManagementCertificate`
when the subscription's is empty.  If that text does not decode, the decode error is
returned with the zero client and `makeClient` is not invoked. -/
theorem C9_certificate_choice_and_decode_error {Client E B K : Type}
    (env : Env Client E B K) (data : Bytes) (subscriptionID : String)
    (config : ClientConfig K) (pd : publishData) (p : publishProfile) (s : subscription)
    (hparse : env.Unmarshal data = Except.ok pd)
    (hsel : firstMatch subscriptionID pd.PublishProfiles = some (p, s)) :
    (s.ManagementCertificate ≠ "" →
        decodedTexts (ClientFromPublishSettingsDataWithConfig env data subscriptionID config).log
          = [s.ManagementCertificate])
    ∧ (s.ManagementCertificate = "" →
        decodedTexts (ClientFromPublishSettingsDataWithConfig env data subscriptionID config).log
          = [p.ManagementCertificate])
    ∧ (∀ e : E, env.DecodeString (certificateText p s) = Except.error e →
        (ClientFromPublishSettingsDataWithConfig env data subscriptionID config).err
            = some (Error.decode e)
          ∧ (ClientFromPublishSettingsDataWithConfig env data subscriptionID config).client
            = env.zero
          ∧ clientCalls
              (ClientFromPublishSettingsDataWithConfig env data subscriptionID config).log
            = []) := by
  rw [WithConfig_of_firstMatch env data subscriptionID config pd p s hparse hsel]
  have hdecoded : decodedTexts (useSubscription env p s config [Event.Unmarshal data]).log
      = [certificateText p s] := by
    cases hd : env.DecodeString (certificateText p s) with
    | error e =>
      rw [useSubscription_decode_error env p s config _ e hd]
      simp [decodedTexts_append, decodedTexts]
    | ok pfx =>
      rw [useSubscription_decode_ok env p s config _ pfx hd]
      simp [decodedTexts_append, decodedTexts, decodedTexts_encode]
  refine ⟨?_, ?_, ?_⟩
  · intro hne
    rw [hdecoded]; simp [certificateText, hne]
  · intro he
    rw [hdecoded]; simp [certificateText, he]
  · intro e hd
    rw [useSubscription_decode_error env p s config _ e hd]
    simp [clientCalls_append, clientCalls]

/-- Instance of C9: the own certificate text of `sub-c` does not decode, and the decode error is returned. -/
theorem C9_certificate_choice_and_decode_error_witness :
    firstMatch "sub-c" sampleDoc.PublishProfiles = some (mainProfile, subC)
    ∧ (ClientFromPublishSettingsDataWithConfig sampleEnv [1] "sub-c"
          sampleEnv.DefaultConfig).err = some (Error.decode "illegal base64 data") :=
  ⟨by decide,
   ((C9_certificate_choice_and_decode_error sampleEnv [1] "sub-c" sampleEnv.DefaultConfig
      sampleDoc mainProfile subC rfl (by decide)).2.2 "illegal base64 data" rfl).1⟩

end FastForward
